import Mathlib

/-!
Verification development for the `tlog` Go package (github.com/thienel/tlog).

The repository instruments two call paths: outbound database statements
(a GORM logger adapter: `GormLogger.Trace`, `parseSQL`, `extractTableName`)
and inbound HTTP exchanges (a Gin middleware: `GinMiddleware`, `maskBody`,
`maskJSONFields`, `shouldMask`).

Shallow-embedding conventions used throughout this file:
- Go `time.Duration` values (int64 nanoseconds) are embedded as `Int`;
  `elapsed` is passed directly instead of `begin`/`time.Since(begin)`.
- Go `string`/`[]byte` values are embedded as Lean `String`; indexing,
  slicing and lengths are at character granularity.
- A `*regexp.Regexp` used only through `MatchString` is embedded as its
  matching behaviour, a function `String → Bool`.  The two concrete
  regexes of `extractTableName` are embedded by their RE2 semantics.
- Emission of log events is embedded as returning a list/record of the
  events that the code would emit, so that suppression is observable.
-/

/-! ## Severities and GORM log levels -/

/-- Severity of an emitted log event (zap `Error`/`Warn`/`Info`). -/
inductive Severity where
  | error
  | warn
  | info
deriving DecidableEq, Repr

/-- `gorm.io/gorm/logger.LogLevel` is `type LogLevel int` with
`Silent = 1`, `Error = 2`, `Warn = 3`, `Info = 4`. -/
abbrev LogLevel := Int

namespace gormlogger

def Silent : LogLevel := 1
def Error : LogLevel := 2
def Warn : LogLevel := 3
def Info : LogLevel := 4

end gormlogger

/-- `GormConfig` (src/unnamed/part_001 lines 17-29): slow-query threshold
(a `time.Duration`, embedded as `Int` nanoseconds), whether
`gorm.ErrRecordNotFound` errors are ignored, and the GORM log level. -/
structure GormConfig where
  SlowThreshold : Int
  IgnoreRecordNotFound : Bool
  LogLevel : LogLevel
deriving DecidableEq, Repr

/-- `DefaultGormConfig` (part_001 lines 32-38): 200ms threshold,
ignore record-not-found, level Warn. -/
def DefaultGormConfig : GormConfig :=
  { SlowThreshold := 200 * 1000000
    IgnoreRecordNotFound := true
    LogLevel := gormlogger.Warn }

/-- A Go `error` value as observed by `GormLogger.Trace`: the only
inspection the code performs is `errors.Is(err, gorm.ErrRecordNotFound)`,
embedded as the field `isRecordNotFound`.  A nil error is `Option.none`
at the use site. -/
structure GoError where
  isRecordNotFound : Bool
deriving DecidableEq, Repr

/-- `GormLogger` (part_001 lines 65-67). -/
structure GormLogger where
  cfg : GormConfig
deriving DecidableEq, Repr

/-- One observable step of `GormLogger.Trace`: either the evaluation of
the deferred accessor `fc` (which yields the SQL text and row count), or
the emission of a log event at some severity with the given message. -/
inductive TraceStep where
  | evalFc
  | emit (sev : Severity) (msg : String)
deriving DecidableEq, Repr

/-- Whether a trace step is an emission. -/
def TraceStep.isEmit : TraceStep → Bool
  | .evalFc => false
  | .emit _ _ => true

/-- `GormLogger.Trace` (src/unnamed/part_001 lines 161-208), embedded as
the ordered list of observable steps it performs.  The code returns
immediately when `LogLevel <= Silent`; otherwise it evaluates
`sql, rows := fc()` unconditionally, then routes: a non-nil error at
level >= Error is either fully suppressed (record-not-found while
`IgnoreRecordNotFound`) or emitted at error severity; else a slow call
(`elapsed > SlowThreshold`, strict) at level >= Warn emits at warn; else
level >= Info emits at info; else nothing is emitted. -/
def GormLogger.Trace (l : GormLogger) (elapsed : Int) (err : Option GoError) :
    List TraceStep :=
  if l.cfg.LogLevel ≤ gormlogger.Silent then
    []
  else
    let pre : List TraceStep := [TraceStep.evalFc]
    if err.isSome ∧ gormlogger.Error ≤ l.cfg.LogLevel then
      if l.cfg.IgnoreRecordNotFound &&
          (match err with
           | some e => e.isRecordNotFound
           | none => false) then
        pre
      else
        pre ++ [TraceStep.emit Severity.error "Database query failed"]
    else if l.cfg.SlowThreshold < elapsed ∧ gormlogger.Warn ≤ l.cfg.LogLevel then
      pre ++ [TraceStep.emit Severity.warn "Slow database query detected"]
    else if gormlogger.Info ≤ l.cfg.LogLevel then
      pre ++ [TraceStep.emit Severity.info "Database query executed"]
    else
      pre

/-! ## SQL classification (`parseSQL`, `extractTableName`) -/

/-- Go `unicode.IsSpace` restricted to the ASCII range, as used by
`strings.TrimSpace` (SQL text is ASCII in all claims). -/
def isGoSpace (c : Char) : Bool :=
  c = ' ' || c = '\t' || c = '\n' || c = Char.ofNat 11 || c = Char.ofNat 12 || c = '\r'

/-- `strings.TrimSpace` on a character list. -/
def trimSpaceList (s : List Char) : List Char :=
  ((s.dropWhile isGoSpace).reverse.dropWhile isGoSpace).reverse

/-- RE2 `\w`: `[0-9A-Za-z_]`. -/
def isWordChar (c : Char) : Bool :=
  c.isAlphanum || c = '_'

/-- RE2 `\s`: `[\t\n\f\r ]`. -/
def isRegexSpace (c : Char) : Bool :=
  c = ' ' || c = '\t' || c = '\n' || c = Char.ofNat 12 || c = '\r'

/-- The quote class `["{backtick}]` of the table-name regexes. -/
def isQuoteChar (c : Char) : Bool :=
  c = '"' || c = Char.ofNat 96

/-- Case-insensitive keyword match at the head of `s` (the `(?i)KW` part
of the regexes); returns the remaining input on success.  `kw` is stored
upper-case. -/
def matchKeywordCI : List Char → List Char → Option (List Char)
  | [], s => some s
  | _ :: _, [] => none
  | k :: ks, c :: cs => if c.toUpper = k then matchKeywordCI ks cs else none

/-- The `\s+ ["{backtick}]? (\w+)` tail of the table-name regexes,
applied right after the keyword: require at least one whitespace
character, skip the whitespace run, optionally skip one quote character,
then capture a non-empty run of word characters.  (RE2 backtracking
cannot rescue a failed attempt here: a whitespace character is neither a
quote nor a word character, and a quote is not a word character.) -/
def matchAfterKeyword (s : List Char) : Option (List Char) :=
  match s with
  | [] => none
  | c :: rest =>
    if isRegexSpace c then
      let afterWs := rest.dropWhile isRegexSpace
      let afterQuote :=
        match afterWs with
        | q :: r => if isQuoteChar q then r else afterWs
        | [] => afterWs
      let cap := afterQuote.takeWhile isWordChar
      if cap.isEmpty then none else some cap
    else
      none

/-- Leftmost match of `(?i)\bKW\s+["{backtick}]?(\w+)` over `s`:
try each start position in order; an attempt requires an ASCII word
boundary (`prev` is the character before the current position). -/
def scanForTable (kw : List Char) (prev : Option Char) (s : List Char) :
    Option (List Char) :=
  match s with
  | [] => none
  | c :: rest =>
    let boundary :=
      match prev with
      | none => true
      | some p => !isWordChar p
    let attempt :=
      if boundary then
        match matchKeywordCI kw (c :: rest) with
        | some afterKw => matchAfterKeyword afterKw
        | none => none
      else
        none
    match attempt with
    | some cap => some cap
    | none => scanForTable kw (some c) rest

/-- `extractTableName` (src/unnamed/part_001 lines 131-158): the keyword
is `FROM` for SELECT and DELETE, `INTO` for INSERT, `UPDATE` for UPDATE;
any other operation returns the empty string, as does a failed match. -/
def extractTableName (s : List Char) (operation : String) : String :=
  let kw : Option (List Char) :=
    if operation = "SELECT" then some "FROM".data
    else if operation = "INSERT" then some "INTO".data
    else if operation = "UPDATE" then some "UPDATE".data
    else if operation = "DELETE" then some "FROM".data
    else none
  match kw with
  | none => ""
  | some k =>
    match scanForTable k none s with
    | some cap => String.mk cap
    | none => ""

/-- `parseSQL` (src/unnamed/part_001 lines 107-128): trim, upper-case,
classify by prefix in priority order SELECT, INSERT, UPDATE, DELETE,
else OTHER; then extract the table name from the trimmed text. -/
def parseSQL (sql : String) : String × String :=
  let s := trimSpaceList sql.data
  let upperSQL := s.map Char.toUpper
  let operation :=
    if "SELECT".data.isPrefixOf upperSQL then "SELECT"
    else if "INSERT".data.isPrefixOf upperSQL then "INSERT"
    else if "UPDATE".data.isPrefixOf upperSQL then "UPDATE"
    else if "DELETE".data.isPrefixOf upperSQL then "DELETE"
    else "OTHER"
  (operation, extractTableName s operation)

/-- Spec-side restatement of the operation classifier, written from the
spec's words: "Operation is determined by case-insensitive prefix match,
checked in fixed priority order SELECT, INSERT, UPDATE, DELETE; no match
yields OTHER."  Case-insensitive prefix match is stated directly,
character by character, rather than by upper-casing the whole statement;
it is compared with the source-derived `parseSQL` in the C6 theorem. -/
def ciIsPrefixOf : List Char → List Char → Bool
  | [], _ => true
  | _ :: _, [] => false
  | k :: ks, c :: cs => (c.toUpper = k.toUpper) && ciIsPrefixOf ks cs

/-- Spec-side operation classifier (see `ciIsPrefixOf`). -/
def specSQLOperation (sql : String) : String :=
  let s := trimSpaceList sql.data
  if ciIsPrefixOf "SELECT".data s then "SELECT"
  else if ciIsPrefixOf "INSERT".data s then "INSERT"
  else if ciIsPrefixOf "UPDATE".data s then "UPDATE"
  else if ciIsPrefixOf "DELETE".data s then "DELETE"
  else "OTHER"

/-! ## JSON field masking (`shouldMask`, `maskJSONFields`) -/

/-- `DefaultMaskValue` (src/unnamed/part_000 line 16). -/
def DefaultMaskValue : String := "******"

/-- A compiled regex from `GinConfig.MaskPatterns`, embedded by the only
operation the code performs on it, `MatchString`. -/
abbrev Pattern := String → Bool

/-- `shouldMask` (part_000 lines 149-156): does any pattern match the
field name? -/
def shouldMask (fieldName : String) (patterns : List Pattern) : Bool :=
  patterns.any (fun p => p fieldName)

/-- The dynamic value produced by `json.Unmarshal` into `any`
(part_000 line 165): `nil`, `bool`, `float64`, `string`,
`[]any`, `map[string]any`.  A number is carried as its source literal;
no claim depends on the float64 value.  An object is carried as a
key-value list with distinct keys (the decoder below upserts). -/
inductive Json where
  | null
  | bool (b : Bool)
  | num (lit : String)
  | str (s : String)
  | arr (items : List Json)
  | obj (fields : List (String × Json))
deriving Repr

mutual

/-- `maskJSONFields` (src/unnamed/part_000 lines 121-146): with no
patterns the value is returned unchanged; a map is rebuilt key by key,
replacing the whole value of a matching key with `DefaultMaskValue` and
recursing into the others; an array recurses element-wise; anything else
is returned unchanged.  The per-key and per-element loops are split into
`maskObjFields` / `maskArrItems` for structural recursion. -/
def maskJSONFields (data : Json) (patterns : List Pattern) : Json :=
  if patterns.isEmpty then
    data
  else
    match data with
    | Json.obj fields => Json.obj (maskObjFields fields patterns)
    | Json.arr items => Json.arr (maskArrItems items patterns)
    | other => other

/-- The `map[string]any` loop of `maskJSONFields`. -/
def maskObjFields (fields : List (String × Json)) (patterns : List Pattern) :
    List (String × Json) :=
  match fields with
  | [] => []
  | (key, val) :: rest =>
    (if shouldMask key patterns then
      (key, Json.str DefaultMaskValue)
    else
      (key, maskJSONFields val patterns)) :: maskObjFields rest patterns

/-- The `[]any` loop of `maskJSONFields`. -/
def maskArrItems (items : List Json) (patterns : List Pattern) : List Json :=
  match items with
  | [] => []
  | item :: rest => maskJSONFields item patterns :: maskArrItems rest patterns

end

/-! ## JSON syntax validation

Go's `encoding/json.Unmarshal` first runs `checkValid` (a scanner state
machine over the raw bytes) and returns its error if the input is not
syntactically valid JSON; only then does it decode.  The scanner below
embeds that machine: one deterministic step per character over a phase
and a stack of open containers. -/

/-- JSON whitespace (`encoding/json` scanner `isSpace`):
space, tab, newline, carriage return. -/
def isJsonWs (c : Char) : Bool :=
  c = ' ' || c = '\t' || c = '\n' || c = '\r'

/-- The object braces as named characters. -/
def lbrace : Char := Char.ofNat 123

/-- See `lbrace`. -/
def rbrace : Char := Char.ofNat 125

/-- A hexadecimal digit (for `\uXXXX` escapes). -/
def isHexDigit (c : Char) : Bool :=
  c.isDigit || ('a' ≤ c && c ≤ 'f') || ('A' ≤ c && c ≤ 'F')

/-- An open container on the scanner stack. -/
inductive Frame where
  | obj
  | arr
deriving DecidableEq, Repr

/-- Scanner phase.  String phases carry whether the string is an object
key (`true`) or a value (`false`).  Keyword literals are tracked by
explicit per-character phases so every phase's transitions are fixed. -/
inductive ScanPhase where
  | value
  | objKeyOrClose
  | objKeyRequired
  | objColon
  | arrFirst
  | postValue
  | strB (key : Bool)
  | strEscB (key : Bool)
  | strU0 (key : Bool)
  | strU1 (key : Bool)
  | strU2 (key : Bool)
  | strU3 (key : Bool)
  | litT1
  | litT2
  | litT3
  | litF1
  | litF2
  | litF3
  | litF4
  | litN1
  | litN2
  | litN3
  | numNeg
  | numZero
  | numInt
  | numDot
  | numFrac
  | numE
  | numESign
  | numExpD
  | errPh
deriving DecidableEq, Repr

/-- Scanner state: current phase and the stack of open containers. -/
structure ScanState where
  ph : ScanPhase
  stk : List Frame
deriving DecidableEq, Repr

/-- The sink error state. -/
def errState : ScanState := ⟨ScanPhase.errPh, []⟩

/-- Transition for the first character of a value. -/
def startValue (stk : List Frame) (c : Char) : ScanState :=
  if c = lbrace then ⟨ScanPhase.objKeyOrClose, Frame.obj :: stk⟩
  else if c = '[' then ⟨ScanPhase.arrFirst, Frame.arr :: stk⟩
  else if c = '"' then ⟨ScanPhase.strB false, stk⟩
  else if c = 't' then ⟨ScanPhase.litT1, stk⟩
  else if c = 'f' then ⟨ScanPhase.litF1, stk⟩
  else if c = 'n' then ⟨ScanPhase.litN1, stk⟩
  else if c = '-' then ⟨ScanPhase.numNeg, stk⟩
  else if c = '0' then ⟨ScanPhase.numZero, stk⟩
  else if c.isDigit then ⟨ScanPhase.numInt, stk⟩
  else errState

/-- Transition for a character arriving just after a finished value:
whitespace idles; in an open object a comma demands another key and a
closing brace pops; in an open array a comma demands another value and a
closing bracket pops; at the top level nothing else may follow. -/
def stepPost (stk : List Frame) (c : Char) : ScanState :=
  if isJsonWs c then ⟨ScanPhase.postValue, stk⟩
  else
    match stk with
    | Frame.obj :: rest =>
      if c = ',' then ⟨ScanPhase.objKeyRequired, Frame.obj :: rest⟩
      else if c = rbrace then ⟨ScanPhase.postValue, rest⟩
      else errState
    | Frame.arr :: rest =>
      if c = ',' then ⟨ScanPhase.value, Frame.arr :: rest⟩
      else if c = ']' then ⟨ScanPhase.postValue, rest⟩
      else errState
    | [] => errState

/-- One scanner step. -/
def scanStep (st : ScanState) (c : Char) : ScanState :=
  match st.ph with
  | ScanPhase.value =>
    if isJsonWs c then st else startValue st.stk c
  | ScanPhase.objKeyOrClose =>
    if isJsonWs c then st
    else if c = '"' then ⟨ScanPhase.strB true, st.stk⟩
    else if c = rbrace then
      match st.stk with
      | _ :: rest => ⟨ScanPhase.postValue, rest⟩
      | [] => errState
    else errState
  | ScanPhase.objKeyRequired =>
    if isJsonWs c then st
    else if c = '"' then ⟨ScanPhase.strB true, st.stk⟩
    else errState
  | ScanPhase.objColon =>
    if isJsonWs c then st
    else if c = ':' then ⟨ScanPhase.value, st.stk⟩
    else errState
  | ScanPhase.arrFirst =>
    if isJsonWs c then st
    else if c = ']' then
      match st.stk with
      | _ :: rest => ⟨ScanPhase.postValue, rest⟩
      | [] => errState
    else startValue st.stk c
  | ScanPhase.postValue => stepPost st.stk c
  | ScanPhase.strB key =>
    if c = '"' then
      if key then ⟨ScanPhase.objColon, st.stk⟩ else ⟨ScanPhase.postValue, st.stk⟩
    else if c = '\\' then ⟨ScanPhase.strEscB key, st.stk⟩
    else if c.toNat < 32 then errState
    else st
  | ScanPhase.strEscB key =>
    if c = '"' || c = '\\' || c = '/' || c = 'b' || c = 'f' || c = 'n' ||
        c = 'r' || c = 't' then ⟨ScanPhase.strB key, st.stk⟩
    else if c = 'u' then ⟨ScanPhase.strU0 key, st.stk⟩
    else errState
  | ScanPhase.strU0 key =>
    if isHexDigit c then ⟨ScanPhase.strU1 key, st.stk⟩ else errState
  | ScanPhase.strU1 key =>
    if isHexDigit c then ⟨ScanPhase.strU2 key, st.stk⟩ else errState
  | ScanPhase.strU2 key =>
    if isHexDigit c then ⟨ScanPhase.strU3 key, st.stk⟩ else errState
  | ScanPhase.strU3 key =>
    if isHexDigit c then ⟨ScanPhase.strB key, st.stk⟩ else errState
  | ScanPhase.litT1 =>
    if c = 'r' then ⟨ScanPhase.litT2, st.stk⟩ else errState
  | ScanPhase.litT2 =>
    if c = 'u' then ⟨ScanPhase.litT3, st.stk⟩ else errState
  | ScanPhase.litT3 =>
    if c = 'e' then ⟨ScanPhase.postValue, st.stk⟩ else errState
  | ScanPhase.litF1 =>
    if c = 'a' then ⟨ScanPhase.litF2, st.stk⟩ else errState
  | ScanPhase.litF2 =>
    if c = 'l' then ⟨ScanPhase.litF3, st.stk⟩ else errState
  | ScanPhase.litF3 =>
    if c = 's' then ⟨ScanPhase.litF4, st.stk⟩ else errState
  | ScanPhase.litF4 =>
    if c = 'e' then ⟨ScanPhase.postValue, st.stk⟩ else errState
  | ScanPhase.litN1 =>
    if c = 'u' then ⟨ScanPhase.litN2, st.stk⟩ else errState
  | ScanPhase.litN2 =>
    if c = 'l' then ⟨ScanPhase.litN3, st.stk⟩ else errState
  | ScanPhase.litN3 =>
    if c = 'l' then ⟨ScanPhase.postValue, st.stk⟩ else errState
  | ScanPhase.numNeg =>
    if c = '0' then ⟨ScanPhase.numZero, st.stk⟩
    else if c.isDigit then ⟨ScanPhase.numInt, st.stk⟩
    else errState
  | ScanPhase.numZero =>
    if c = '.' then ⟨ScanPhase.numDot, st.stk⟩
    else if c = 'e' || c = 'E' then ⟨ScanPhase.numE, st.stk⟩
    else stepPost st.stk c
  | ScanPhase.numInt =>
    if c.isDigit then ⟨ScanPhase.numInt, st.stk⟩
    else if c = '.' then ⟨ScanPhase.numDot, st.stk⟩
    else if c = 'e' || c = 'E' then ⟨ScanPhase.numE, st.stk⟩
    else stepPost st.stk c
  | ScanPhase.numDot =>
    if c.isDigit then ⟨ScanPhase.numFrac, st.stk⟩ else errState
  | ScanPhase.numFrac =>
    if c.isDigit then ⟨ScanPhase.numFrac, st.stk⟩
    else if c = 'e' || c = 'E' then ⟨ScanPhase.numE, st.stk⟩
    else stepPost st.stk c
  | ScanPhase.numE =>
    if c = '+' || c = '-' then ⟨ScanPhase.numESign, st.stk⟩
    else if c.isDigit then ⟨ScanPhase.numExpD, st.stk⟩
    else errState
  | ScanPhase.numESign =>
    if c.isDigit then ⟨ScanPhase.numExpD, st.stk⟩ else errState
  | ScanPhase.numExpD =>
    if c.isDigit then ⟨ScanPhase.numExpD, st.stk⟩ else stepPost st.stk c
  | ScanPhase.errPh => errState

/-- Phases in which the input may legally end (a complete value has just
finished, or a number that may end here). -/
def acceptPhase : ScanPhase → Bool
  | ScanPhase.postValue => true
  | ScanPhase.numZero => true
  | ScanPhase.numInt => true
  | ScanPhase.numFrac => true
  | ScanPhase.numExpD => true
  | _ => false

/-- End-of-input acceptance: a terminable phase with no open containers. -/
def scanAccept (st : ScanState) : Bool :=
  acceptPhase st.ph && st.stk.isEmpty

/-- `encoding/json.checkValid`: run the scanner over the whole input and
accept or reject.  This is the validity notion of `json.Unmarshal`. -/
def checkValid (s : String) : Bool :=
  scanAccept (s.data.foldl scanStep ⟨ScanPhase.value, []⟩)

/-! ## JSON decoding and encoding

`json.Unmarshal` decodes the (already validated) input into dynamic Go
values; `json.Marshal` serializes the masked result.  Claims only
exercise the failure path of `Unmarshal` and the tree transform, so the
decoder and encoder below are embedded without associated lemmas. -/

/-- Drop JSON whitespace. -/
def skipWsL (s : List Char) : List Char :=
  s.dropWhile isJsonWs

/-- Numeric value of a hexadecimal digit. -/
def hexVal (c : Char) : Option Nat :=
  if c.isDigit then some (c.toNat - 48)
  else if 'a' ≤ c && c ≤ 'f' then some (c.toNat - 87)
  else if 'A' ≤ c && c ≤ 'F' then some (c.toNat - 55)
  else none

/-- Value of four hexadecimal digits. -/
def hex4 (h1 h2 h3 h4 : Char) : Option Nat :=
  match hexVal h1, hexVal h2, hexVal h3, hexVal h4 with
  | some a, some b, some c, some d => some (((a * 16 + b) * 16 + c) * 16 + d)
  | _, _, _, _ => none

/-- The translation of a simple escape character. -/
def escChar (c : Char) : Char :=
  if c = 'b' then Char.ofNat 8
  else if c = 'f' then Char.ofNat 12
  else if c = 'n' then '\n'
  else if c = 'r' then '\r'
  else if c = 't' then '\t'
  else c

/-- Decode the contents of a string literal, positioned just after the
opening quote; returns the decoded characters and the input after the
closing quote.  `\uXXXX` escapes follow Go: a valid surrogate pair is
combined, a lone surrogate becomes U+FFFD. -/
def decodeString (fuel : Nat) (s : List Char) : Option (List Char × List Char) :=
  match fuel, s with
  | 0, _ => none
  | _ + 1, [] => none
  | f + 1, c :: r =>
    if c = '"' then
      some ([], r)
    else if c = '\\' then
      match r with
      | [] => none
      | e :: r2 =>
        if e = '"' || e = '\\' || e = '/' || e = 'b' || e = 'f' || e = 'n' ||
            e = 'r' || e = 't' then
          match decodeString f r2 with
          | some (cs, rest) => some (escChar e :: cs, rest)
          | none => none
        else if e = 'u' then
          match r2 with
          | h1 :: h2 :: h3 :: h4 :: r3 =>
            match hex4 h1 h2 h3 h4 with
            | none => none
            | some n =>
              if 0xD800 ≤ n ∧ n < 0xDC00 then
                match r3 with
                | '\\' :: 'u' :: k1 :: k2 :: k3 :: k4 :: r4 =>
                  match hex4 k1 k2 k3 k4 with
                  | some m =>
                    if 0xDC00 ≤ m ∧ m < 0xE000 then
                      match decodeString f r4 with
                      | some (cs, rest) =>
                        some (Char.ofNat (0x10000 + (n - 0xD800) * 0x400 +
                          (m - 0xDC00)) :: cs, rest)
                      | none => none
                    else
                      match decodeString f r3 with
                      | some (cs, rest) => some (Char.ofNat 0xFFFD :: cs, rest)
                      | none => none
                  | none =>
                    match decodeString f r3 with
                    | some (cs, rest) => some (Char.ofNat 0xFFFD :: cs, rest)
                    | none => none
                | _ =>
                  match decodeString f r3 with
                  | some (cs, rest) => some (Char.ofNat 0xFFFD :: cs, rest)
                  | none => none
              else if 0xDC00 ≤ n ∧ n < 0xE000 then
                match decodeString f r3 with
                | some (cs, rest) => some (Char.ofNat 0xFFFD :: cs, rest)
                | none => none
              else
                match decodeString f r3 with
                | some (cs, rest) => some (Char.ofNat n :: cs, rest)
                | none => none
          | _ => none
        else none
    else
      match decodeString f r with
      | some (cs, rest) => some (c :: cs, rest)
      | none => none

/-- Characters a number literal may contain (lenient lexing; the input
has already passed `checkValid`). -/
def isNumChar (c : Char) : Bool :=
  c.isDigit || c = '-' || c = '+' || c = '.' || c = 'e' || c = 'E'

/-- Insert-or-replace into the key-value list of an object, modelling
assignment into a Go `map[string]any` (duplicate keys: last wins). -/
def objUpsert (l : List (String × Json)) (k : String) (v : Json) :
    List (String × Json) :=
  if l.any (fun kv => kv.1 = k) then
    l.map (fun kv => if kv.1 = k then (k, v) else kv)
  else
    l ++ [(k, v)]

mutual

/-- Decode one JSON value from `s` (leading whitespace allowed);
returns the value and the remaining input. -/
def decValue (fuel : Nat) (s : List Char) : Option (Json × List Char) :=
  match fuel with
  | 0 => none
  | f + 1 =>
    match skipWsL s with
    | [] => none
    | c :: r =>
      if c = lbrace then decObj f (skipWsL r) []
      else if c = '[' then decArr f (skipWsL r) []
      else if c = '"' then
        match decodeString (r.length + 1) r with
        | some (cs, rest) => some (Json.str (String.mk cs), rest)
        | none => none
      else if c = 't' then
        if ['r', 'u', 'e'].isPrefixOf r then some (Json.bool true, r.drop 3)
        else none
      else if c = 'f' then
        if ['a', 'l', 's', 'e'].isPrefixOf r then some (Json.bool false, r.drop 4)
        else none
      else if c = 'n' then
        if ['u', 'l', 'l'].isPrefixOf r then some (Json.null, r.drop 3)
        else none
      else if isNumChar c then
        let lit := (c :: r).takeWhile isNumChar
        some (Json.num (String.mk lit), (c :: r).dropWhile isNumChar)
      else none

/-- Decode the members of an object, positioned after `{` (or after a
`,`) with whitespace skipped. -/
def decObj (fuel : Nat) (s : List Char) (acc : List (String × Json)) :
    Option (Json × List Char) :=
  match fuel with
  | 0 => none
  | f + 1 =>
    match s with
    | [] => none
    | c :: r =>
      if c = rbrace then some (Json.obj acc, r)
      else if c = '"' then
        match decodeString (r.length + 1) r with
        | none => none
        | some (keyCs, r1) =>
          match skipWsL r1 with
          | ':' :: r2 =>
            match decValue f r2 with
            | none => none
            | some (v, r3) =>
              let acc2 := objUpsert acc (String.mk keyCs) v
              match skipWsL r3 with
              | [] => none
              | c2 :: r4 =>
                if c2 = ',' then decObj f (skipWsL r4) acc2
                else if c2 = rbrace then some (Json.obj acc2, r4)
                else none
          | _ => none
      else none

/-- Decode the elements of an array, positioned after `[` (or after a
`,`) with whitespace skipped. -/
def decArr (fuel : Nat) (s : List Char) (acc : List Json) :
    Option (Json × List Char) :=
  match fuel with
  | 0 => none
  | f + 1 =>
    match s with
    | ']' :: r => some (Json.arr acc.reverse, r)
    | _ =>
      match decValue f s with
      | none => none
      | some (v, r1) =>
        match skipWsL r1 with
        | ',' :: r2 => decArr f (skipWsL r2) (v :: acc)
        | ']' :: r2 => some (Json.arr (v :: acc).reverse, r2)
        | _ => none

end

/-- Decode a whole document: one value followed only by whitespace. -/
def decodeValue (s : String) : Option Json :=
  match decValue (2 * (s.length + 2)) s.data with
  | some (j, rest) => if (skipWsL rest).isEmpty then some j else none
  | none => none

/-- `json.Unmarshal` into `any`: validate with the scanner, then decode.
`none` is a returned error. -/
def unmarshalJSON (s : String) : Option Json :=
  if checkValid s then decodeValue s else none

/-- One decoded character re-escaped as `json.Marshal` renders it
(HTML-escaping `<`, `>`, `&` as Go does by default). -/
def hexDigitChar (n : Nat) : Char :=
  if n < 10 then Char.ofNat (48 + n) else Char.ofNat (87 + n)

/-- See `hexDigitChar`. -/
def escapeJSONChar (c : Char) : List Char :=
  if c = '"' then ['\\', '"']
  else if c = '\\' then ['\\', '\\']
  else if c = '\n' then ['\\', 'n']
  else if c = '\r' then ['\\', 'r']
  else if c = '\t' then ['\\', 't']
  else if c.toNat < 32 || c = '<' || c = '>' || c = '&' then
    ['\\', 'u', '0', '0', hexDigitChar (c.toNat / 16), hexDigitChar (c.toNat % 16)]
  else [c]

/-- Escape a whole string body. -/
def escapeJSONString (s : List Char) : List Char :=
  match s with
  | [] => []
  | c :: r => escapeJSONChar c ++ escapeJSONString r

mutual

/-- `json.Marshal` of a decoded value.  (Go renders numbers from their
float64 value and sorts map keys; this embedding keeps the source number
literal and the stored key order, which no claim observes.) -/
def renderJSON : Json → String
  | Json.null => "null"
  | Json.bool true => "true"
  | Json.bool false => "false"
  | Json.num lit => lit
  | Json.str s => String.mk ('"' :: escapeJSONString s.data ++ ['"'])
  | Json.arr items => "[" ++ renderItems items ++ "]"
  | Json.obj fields => "\x7b" ++ renderFields fields ++ "\x7d"

/-- Comma-separated array elements. -/
def renderItems : List Json → String
  | [] => ""
  | [x] => renderJSON x
  | x :: y :: rest => renderJSON x ++ "," ++ renderItems (y :: rest)

/-- Comma-separated object members. -/
def renderFields : List (String × Json) → String
  | [] => ""
  | [(k, v)] => String.mk ('"' :: escapeJSONString k.data ++ ['"']) ++ ":" ++ renderJSON v
  | (k, v) :: m :: rest =>
    String.mk ('"' :: escapeJSONString k.data ++ ['"']) ++ ":" ++ renderJSON v ++ "," ++
      renderFields (m :: rest)

end

/-- `maskBody` (src/unnamed/part_000 lines 160-177): with no patterns or
an empty body, return the body; if `json.Unmarshal` fails, return the
body; otherwise mask the decoded tree and re-marshal.  (`json.Marshal`
cannot fail on a value produced by `Unmarshal`, so the embedded encoder
is total.) -/
def maskBody (body : String) (patterns : List Pattern) : String :=
  if patterns.isEmpty || body = "" then
    body
  else
    match unmarshalJSON body with
    | none => body
    | some data => renderJSON (maskJSONFields data patterns)

/-! ## The Gin middleware (`GinMiddleware`) -/

/-- `GinConfig` (src/unnamed/part_000 lines 19-46).  `MaxBodyLogSize` is
a Go `int`; it is embedded as `Nat` (a size).  `MaskPatterns` are the
compiled regexes, embedded by their `MatchString` behaviour. -/
structure GinConfig where
  RequestIDHeader : String
  MaxBodyLogSize : Nat
  LogRequestBody : Bool
  LogResponseBody : Bool
  SkipPaths : List String
  UseUUIDv7 : Bool
  MaskPatterns : List Pattern

/-- The request body reader `c.Request.Body`: `full` is the complete
byte content the stream would deliver; `failAfter = some k` means
`io.ReadAll` returns the first `k` bytes together with a non-nil error,
`none` means it returns all of `full` with a nil error.  After a read,
the unread remainder is what a later reader observes. -/
structure BodyStream where
  full : String
  failAfter : Option Nat
deriving Repr

/-- The fields of one inbound request that `GinMiddleware` reads.
`headerRequestID` is `c.GetHeader(cfg.RequestIDHeader)` (empty string
when absent); `body` is `nil` when `none`. -/
structure GinRequest where
  urlPath : String
  method : String
  rawQuery : String
  clientIP : String
  userAgent : String
  headerRequestID : String
  body : Option BodyStream
deriving Repr

/-- What the downstream handler did: final status, the bytes it wrote
through the (wrapped) response writer, the optional authenticated user
id from the context, and the accumulated `c.Errors` rendered to text. -/
structure HandlerResult where
  status : Int
  written : String
  userID : Option Nat
  errorsText : Option String
deriving Repr

/-- The "Request received" event (part_000 lines 252-259). -/
structure ReceivedEvent where
  requestID : String
  method : String
  path : String
  query : String
  clientIP : String
  userAgent : String
deriving Repr

/-- The completion event (part_000 lines 281-336): its severity and the
optional body fields attached for error responses. -/
structure CompletionEvent where
  severity : Severity
  requestID : String
  method : String
  path : String
  status : Int
  responseBody : Option String
  requestBody : Option String
deriving Repr

/-- Everything observable about one pass of the middleware handler:
whether `c.Next()` ran, the request-id assignment (`c.Set` plus the
response header, always written together), whether the request body
stream was read, the body content still available to the downstream
handler, the captured snapshots, and the emitted events. -/
structure GinOutcome where
  nextCalled : Bool
  requestIDAssigned : Option String
  bodyWasRead : Bool
  handlerBody : Option String
  requestBodySnapshot : String
  responseBodySnapshot : Option String
  received : Option ReceivedEvent
  completion : Option CompletionEvent

/-- The truncation applied at both capture sites (part_000 lines 242-243
and 310-311): bodies longer than the limit are cut to the limit and the
marker is appended. -/
def truncateSnapshot (maxSize : Nat) (body : String) : String :=
  if maxSize < body.length then body.take maxSize ++ "...[truncated]" else body

/-- The handler function returned by `GinMiddleware`
(src/unnamed/part_000 lines 202-337), embedded as a pure function from
the request, the handler's behaviour, and the id the uuid generator
would produce (`genID` stands for the `uuid.NewV7()`/`uuid.New()` draw)
to the observable outcome.

Control flow follows the source: a skipped path only calls `c.Next()`;
otherwise the request id is taken from the inbound header or generated;
for non-GET requests with body logging enabled the body is read, and
only on a successful read restored for the handler and snapshotted with
truncation; the received event is emitted; the handler runs; the
completion event is emitted at a severity chosen from the status code,
attaching the masked response/request snapshots for statuses >= 400. -/
def GinMiddleware (cfg : GinConfig) (genID : String) (req : GinRequest)
    (handler : HandlerResult) : GinOutcome :=
  if cfg.SkipPaths.contains req.urlPath then
    { nextCalled := true
      requestIDAssigned := none
      bodyWasRead := false
      handlerBody := req.body.map (fun b => b.full)
      requestBodySnapshot := ""
      responseBodySnapshot := none
      received := none
      completion := none }
  else
    let requestID :=
      if req.headerRequestID = "" then genID else req.headerRequestID
    let capture :
        Bool × Option String × String :=
      match req.body with
      | none => (false, none, "")
      | some bs =>
        if cfg.LogRequestBody && !(req.method = "GET") then
          match bs.failAfter with
          | none =>
            (true, some bs.full,
              if 0 < bs.full.length then
                truncateSnapshot cfg.MaxBodyLogSize bs.full
              else "")
          | some k => (true, some (bs.full.drop k), "")
        else
          (false, some bs.full, "")
    let bodyWasRead := capture.1
    let handlerBody := capture.2.1
    let requestBody := capture.2.2
    let statusCode := handler.status
    let respSnap : Option String :=
      if 400 ≤ statusCode ∧ cfg.LogResponseBody then
        some (truncateSnapshot cfg.MaxBodyLogSize handler.written)
      else none
    let completion : CompletionEvent :=
      { severity :=
          if 500 ≤ statusCode then Severity.error
          else if 400 ≤ statusCode then Severity.warn
          else Severity.info
        requestID := requestID
        method := req.method
        path := req.urlPath
        status := statusCode
        responseBody := respSnap.map (fun s => maskBody s cfg.MaskPatterns)
        requestBody :=
          if 400 ≤ statusCode ∧ cfg.LogRequestBody ∧ requestBody ≠ "" then
            some (maskBody requestBody cfg.MaskPatterns)
          else none }
    { nextCalled := true
      requestIDAssigned := some requestID
      bodyWasRead := bodyWasRead
      handlerBody := handlerBody
      requestBodySnapshot := requestBody
      responseBodySnapshot := respSnap
      received := some
        { requestID := requestID
          method := req.method
          path := req.urlPath
          query := req.rawQuery
          clientIP := req.clientIP
          userAgent := req.userAgent }
      completion := some completion }

/-! ## Claims about `GormLogger.Trace` (C1, C2, C3) -/

/-- C1 counterexample: with the default-style configuration at level
Error, no error and a fast call, `Trace` emits nothing — yet the
deferred accessor `fc` is still evaluated (line 167 of part_001 runs
before the routing switch).  This refutes the claim that `fc` is
evaluated only when an event will actually be emitted. -/
theorem gormTrace_lazy_fc_counterexample :
    ((GormLogger.mk ⟨200, true, gormlogger.Error⟩).Trace 10 none).all
        (fun s => !s.isEmit) = true ∧
      TraceStep.evalFc ∈ (GormLogger.mk ⟨200, true, gormlogger.Error⟩).Trace 10 none := by
  constructor
  · decide
  · decide

/-- C1 (amended): the deferred accessor is evaluated exactly when the
log level is above Silent, regardless of whether any event is emitted;
it is skipped only by the `LogLevel <= Silent` early return. -/
theorem gormTrace_fc_eval_iff_not_silent (l : GormLogger) (elapsed : Int)
    (err : Option GoError) :
    TraceStep.evalFc ∈ l.Trace elapsed err ↔ gormlogger.Silent < l.cfg.LogLevel := by
  unfold GormLogger.Trace
  by_cases h : l.cfg.LogLevel ≤ gormlogger.Silent
  · simp only [if_pos h, List.not_mem_nil, false_iff, not_lt]
    exact h
  · have h1 : gormlogger.Silent < l.cfg.LogLevel := lt_of_not_le h
    simp only [if_neg h]
    constructor
    · intro _
      exact h1
    · intro _
      split
      · split
        · exact List.mem_singleton.mpr rfl
        · exact List.mem_append_left _ (List.mem_singleton.mpr rfl)
      · split
        · exact List.mem_append_left _ (List.mem_singleton.mpr rfl)
        · split
          · exact List.mem_append_left _ (List.mem_singleton.mpr rfl)
          · exact List.mem_singleton.mpr rfl

/-- C2: at any level above Silent, a non-nil record-not-found error with
`IgnoreRecordNotFound` set suppresses every emission, whatever the
elapsed time: the error branch is taken (level above Silent implies
level at least Error) and returns before emitting. -/
theorem gormTrace_ignorable_error_suppressed (l : GormLogger) (elapsed : Int)
    (e : GoError) (hlvl : gormlogger.Silent < l.cfg.LogLevel)
    (hnf : e.isRecordNotFound = true)
    (hign : l.cfg.IgnoreRecordNotFound = true) :
    (l.Trace elapsed (some e)).all (fun s => !s.isEmit) = true := by
  have hsil : ¬ l.cfg.LogLevel ≤ gormlogger.Silent := not_le_of_lt hlvl
  have herr : gormlogger.Error ≤ l.cfg.LogLevel := by
    have h1 : (1 : Int) < l.cfg.LogLevel := hlvl
    show (2 : Int) ≤ l.cfg.LogLevel
    linarith
  unfold GormLogger.Trace
  rw [if_neg hsil]
  rw [if_pos ⟨rfl, herr⟩]
  rw [if_pos (by simp [hign, hnf])]
  decide

/-- C2 witness: level Warn, slow elapsed time, ignorable error. -/
theorem gormTrace_ignorable_error_suppressed_witness :
    gormlogger.Silent < (3 : Int) ∧ GoError.isRecordNotFound ⟨true⟩ = true ∧
      ((GormLogger.mk ⟨200, true, 3⟩).Trace 400 (some ⟨true⟩)).all
        (fun s => !s.isEmit) = true :=
  ⟨by decide, rfl,
    gormTrace_ignorable_error_suppressed ⟨⟨200, true, 3⟩⟩ 400 ⟨true⟩ (by decide) rfl rfl⟩

/-- C3: the slow comparison is strict.  With no error and level at
least Warn: at `elapsed = SlowThreshold` no warn event is emitted and an
info event is emitted exactly when the level admits Info; at
`elapsed = SlowThreshold + 1` the warn event is emitted. -/
theorem gormTrace_slow_threshold_strict (l : GormLogger)
    (hW : gormlogger.Warn ≤ l.cfg.LogLevel) :
    (TraceStep.emit Severity.warn "Slow database query detected" ∉
        l.Trace l.cfg.SlowThreshold none) ∧
      ((TraceStep.emit Severity.info "Database query executed" ∈
          l.Trace l.cfg.SlowThreshold none) ↔ gormlogger.Info ≤ l.cfg.LogLevel) ∧
      TraceStep.emit Severity.warn "Slow database query detected" ∈
        l.Trace (l.cfg.SlowThreshold + 1) none := by
  have hsil : ¬ l.cfg.LogLevel ≤ gormlogger.Silent := by
    intro hle
    have h1 : (3 : Int) ≤ l.cfg.LogLevel := hW
    have h2 : l.cfg.LogLevel ≤ (1 : Int) := hle
    linarith
  have hne : ¬ (((none : Option GoError)).isSome = true ∧
      gormlogger.Error ≤ l.cfg.LogLevel) := by
    intro hc
    exact Bool.false_ne_true hc.1
  have hslow : ¬ (l.cfg.SlowThreshold < l.cfg.SlowThreshold ∧
      gormlogger.Warn ≤ l.cfg.LogLevel) := by
    intro hc
    exact lt_irrefl _ hc.1
  refine ⟨?_, ?_, ?_⟩
  · unfold GormLogger.Trace
    rw [if_neg hsil, if_neg hne, if_neg hslow]
    split
    · simp
    · simp
  · unfold GormLogger.Trace
    rw [if_neg hsil, if_neg hne, if_neg hslow]
    constructor
    · intro hmem
      by_contra hni
      rw [if_neg hni] at hmem
      simp at hmem
    · intro hI
      rw [if_pos hI]
      simp
  · unfold GormLogger.Trace
    rw [if_neg hsil, if_neg hne,
      if_pos ⟨lt_add_one _, hW⟩]
    simp

/-- C3 witness: default configuration (200ms threshold, level Warn). -/
theorem gormTrace_slow_threshold_strict_witness :
    gormlogger.Warn ≤ (GormLogger.mk DefaultGormConfig).cfg.LogLevel ∧
      ((TraceStep.emit Severity.warn "Slow database query detected" ∉
          (GormLogger.mk DefaultGormConfig).Trace
            (GormLogger.mk DefaultGormConfig).cfg.SlowThreshold none) ∧
        ((TraceStep.emit Severity.info "Database query executed" ∈
            (GormLogger.mk DefaultGormConfig).Trace
              (GormLogger.mk DefaultGormConfig).cfg.SlowThreshold none) ↔
          gormlogger.Info ≤ (GormLogger.mk DefaultGormConfig).cfg.LogLevel) ∧
        TraceStep.emit Severity.warn "Slow database query detected" ∈
          (GormLogger.mk DefaultGormConfig).Trace
            ((GormLogger.mk DefaultGormConfig).cfg.SlowThreshold + 1) none) :=
  ⟨by decide, gormTrace_slow_threshold_strict (GormLogger.mk DefaultGormConfig) (by decide)⟩


/-! ## Claim about `parseSQL` / `extractTableName` (C6) -/

/-- Character-wise case-insensitive matching agrees with upper-casing
both sides first. -/
theorem ciIsPrefixOf_eq (kw s : List Char) :
    ciIsPrefixOf kw s = (kw.map Char.toUpper).isPrefixOf (s.map Char.toUpper) := by
  induction kw generalizing s with
  | nil => cases s <;> rfl
  | cons k ks ih =>
    cases s with
    | nil => rfl
    | cons c cs =>
      simp only [ciIsPrefixOf, List.map_cons, List.isPrefixOf]
      rw [ih]
      congr 1
      simp [BEq.beq, decide_eq_decide]
      constructor
      · intro h; exact h.symm
      · intro h; exact h.symm

/-- C6: the operation is a case-insensitive prefix match in the fixed
priority order SELECT, INSERT, UPDATE, DELETE with OTHER as fallback
(`parseSQL` agrees with the spec-side classifier `specSQLOperation` on
every statement); the three concrete classifications hold, with the
wrapping quotes stripped from `"orders"`; and table extraction is total,
yielding the empty string for an OTHER statement. -/
theorem parseSQL_classification :
    (∀ sql, (parseSQL sql).1 = specSQLOperation sql) ∧
      parseSQL "SELECT * FROM users WHERE id=1" = ("SELECT", "users") ∧
      parseSQL "INSERT INTO \"orders\" (a) VALUES (1)" = ("INSERT", "orders") ∧
      parseSQL "garbage;;;" = ("OTHER", "") ∧
      (∀ sql, (parseSQL sql).1 = "OTHER" → (parseSQL sql).2 = "") := by
  have hS : "SELECT".data.map Char.toUpper = "SELECT".data := by decide
  have hI : "INSERT".data.map Char.toUpper = "INSERT".data := by decide
  have hU : "UPDATE".data.map Char.toUpper = "UPDATE".data := by decide
  have hD : "DELETE".data.map Char.toUpper = "DELETE".data := by decide
  refine ⟨?_, by decide, by decide, by decide, ?_⟩
  · intro sql
    simp only [parseSQL, specSQLOperation, ciIsPrefixOf_eq, hS, hI, hU, hD]
  · intro sql h
    simp only [parseSQL] at h ⊢
    rw [h]
    rfl

/-- C6 witness: the OTHER clause of `parseSQL_classification`
instantiated at a concrete unclassifiable statement. -/
theorem parseSQL_classification_witness :
    (parseSQL "DROP TABLE users").1 = "OTHER" ∧ (parseSQL "DROP TABLE users").2 = "" :=
  ⟨by decide, parseSQL_classification.2.2.2.2 "DROP TABLE users" (by decide)⟩

/-! ## Claims about `GinMiddleware` (C7, C8, C9) -/

/-- C8: on a configured skip path the middleware only calls `c.Next()`:
no request id is assigned (context value or response header), the body
stream is not read and is left untouched for the handler, no snapshot is
taken, and neither event is emitted. -/
theorem ginMiddleware_skip_transparent (cfg : GinConfig) (genID : String)
    (req : GinRequest) (handler : HandlerResult)
    (hskip : cfg.SkipPaths.contains req.urlPath = true) :
    (GinMiddleware cfg genID req handler).nextCalled = true ∧
      (GinMiddleware cfg genID req handler).requestIDAssigned = none ∧
      (GinMiddleware cfg genID req handler).bodyWasRead = false ∧
      (GinMiddleware cfg genID req handler).handlerBody =
        req.body.map (fun b => b.full) ∧
      (GinMiddleware cfg genID req handler).requestBodySnapshot = "" ∧
      (GinMiddleware cfg genID req handler).received = none ∧
      (GinMiddleware cfg genID req handler).completion = none := by
  unfold GinMiddleware
  rw [if_pos hskip]
  exact ⟨rfl, rfl, rfl, rfl, rfl, rfl, rfl⟩

/-- C8 witness: a POST to a skipped health endpoint. -/
theorem ginMiddleware_skip_transparent_witness :
    (GinConfig.mk "X-Request-ID" 4096 true true ["/health"] true []).SkipPaths.contains
        (GinRequest.mk "/health" "POST" "" "127.0.0.1" "curl" "" (some ⟨"abc", none⟩)).urlPath = true ∧
      (GinMiddleware (GinConfig.mk "X-Request-ID" 4096 true true ["/health"] true []) "gen"
          (GinRequest.mk "/health" "POST" "" "127.0.0.1" "curl" "" (some ⟨"abc", none⟩))
          (HandlerResult.mk 200 "ok" none none)).requestIDAssigned = none ∧
      (GinMiddleware (GinConfig.mk "X-Request-ID" 4096 true true ["/health"] true []) "gen"
          (GinRequest.mk "/health" "POST" "" "127.0.0.1" "curl" "" (some ⟨"abc", none⟩))
          (HandlerResult.mk 200 "ok" none none)).received = none ∧
      (GinMiddleware (GinConfig.mk "X-Request-ID" 4096 true true ["/health"] true []) "gen"
          (GinRequest.mk "/health" "POST" "" "127.0.0.1" "curl" "" (some ⟨"abc", none⟩))
          (HandlerResult.mk 200 "ok" none none)).completion = none := by
  refine ⟨by decide, ?_, ?_, ?_⟩
  · exact (ginMiddleware_skip_transparent _ "gen" _ _ (by decide)).2.1
  · exact (ginMiddleware_skip_transparent _ "gen" _ _ (by decide)).2.2.2.2.2.1
  · exact (ginMiddleware_skip_transparent _ "gen" _ _ (by decide)).2.2.2.2.2.2

/-- C7 counterexample: with body logging enabled, a non-GET method and a
body whose read fails after one of its two bytes, the capture conditions
of the claim hold and the body stream is read, yet the downstream
handler observes only the unread remainder `"b"`, not the complete
original body `"ab"` — the code restores the body only under
`err == nil` (part_000 line 238-240). -/
theorem ginMiddleware_restore_counterexample :
    (GinMiddleware (GinConfig.mk "X-Request-ID" 4096 true true [] true []) "gen"
        (GinRequest.mk "/x" "POST" "" "" "" "" (some ⟨"ab", some 1⟩))
        (HandlerResult.mk 200 "" none none)).bodyWasRead = true ∧
      (GinMiddleware (GinConfig.mk "X-Request-ID" 4096 true true [] true []) "gen"
          (GinRequest.mk "/x" "POST" "" "" "" "" (some ⟨"ab", some 1⟩))
          (HandlerResult.mk 200 "" none none)).handlerBody = some "b" ∧
      some "b" ≠ some "ab" := by
  refine ⟨by decide, by decide, by decide⟩

/-- C7 (amended): for a non-skipped path with request-body logging
enabled and a non-GET method, the handler observes the complete original
body exactly when the read succeeds; when the read fails after `k`
bytes, nothing is restored and the handler observes only the unread
remainder. -/
theorem ginMiddleware_body_restore (cfg : GinConfig) (genID : String)
    (req : GinRequest) (handler : HandlerResult) (bs : BodyStream)
    (hskip : cfg.SkipPaths.contains req.urlPath = false)
    (hlog : cfg.LogRequestBody = true)
    (hmethod : req.method ≠ "GET")
    (hbody : req.body = some bs) :
    (bs.failAfter = none →
        (GinMiddleware cfg genID req handler).handlerBody = some bs.full) ∧
      (∀ k, bs.failAfter = some k →
        (GinMiddleware cfg genID req handler).handlerBody =
          some (bs.full.drop k)) := by
  have hnskip : ¬ (cfg.SkipPaths.contains req.urlPath = true) := by
    rw [hskip]
    exact Bool.false_ne_true
  have hcond : (cfg.LogRequestBody && !decide (req.method = "GET")) = true := by
    rw [hlog]
    simp [hmethod]
  unfold GinMiddleware
  rw [if_neg hnskip]
  constructor
  · intro hok
    simp only [hbody]
    rw [if_pos hcond, hok]
  · intro k hfail
    simp only [hbody]
    rw [if_pos hcond, hfail]

/-- C7 witness: a successful read of a two-byte POST body is fully
restored for the handler. -/
theorem ginMiddleware_body_restore_witness :
    (GinConfig.mk "X-Request-ID" 4096 true true [] true []).SkipPaths.contains "/x" = false ∧
      (GinMiddleware (GinConfig.mk "X-Request-ID" 4096 true true [] true []) "gen"
          (GinRequest.mk "/x" "POST" "" "" "" "" (some ⟨"ab", none⟩))
          (HandlerResult.mk 200 "" none none)).handlerBody = some "ab" := by
  refine ⟨by decide, ?_⟩
  exact (ginMiddleware_body_restore _ "gen" _ _ ⟨"ab", none⟩ (by decide) rfl
    (by decide) rfl).1 rfl

/-- The truncation branch taken for over-long bodies. -/
theorem truncateSnapshot_long (maxSize : Nat) (b : String) (h : maxSize < b.length) :
    truncateSnapshot maxSize b = b.take maxSize ++ "...[truncated]" := by
  unfold truncateSnapshot
  rw [if_pos h]

/-- Bodies within the limit are kept verbatim. -/
theorem truncateSnapshot_short (maxSize : Nat) (b : String) (h : b.length ≤ maxSize) :
    truncateSnapshot maxSize b = b := by
  unfold truncateSnapshot
  rw [if_neg (not_lt.mpr h)]

/-- The retained prefix has exactly the configured length. -/
theorem take_length_of_le (maxSize : Nat) (b : String) (h : maxSize ≤ b.length) :
    (b.take maxSize).length = maxSize := by
  show (b.take maxSize).data.length = maxSize
  rw [String.data_take, List.length_take]
  exact min_eq_left h

/-- A string of length zero is the empty string. -/
theorem string_eq_empty_of_length_eq_zero (s : String) (h : s.length = 0) : s = "" := by
  apply String.ext
  exact List.length_eq_zero.mp h

/-- C9: a captured body of length `max + k` (k > 0) is stored as exactly
the first `max` bytes followed by `"...[truncated]"`, and a body of
length at most `max` is stored in full without the marker — at the
request-capture site (the snapshot taken before the handler runs) and at
the completion site (the response snapshot, taken when an error status
with response-body logging attaches it). -/
theorem ginMiddleware_snapshot_truncation (cfg : GinConfig) (genID : String)
    (req : GinRequest) (handler : HandlerResult) (bs : BodyStream)
    (hskip : cfg.SkipPaths.contains req.urlPath = false)
    (hlog : cfg.LogRequestBody = true)
    (hmethod : req.method ≠ "GET")
    (hbody : req.body = some bs)
    (hok : bs.failAfter = none) :
    (∀ k, 0 < k → bs.full.length = cfg.MaxBodyLogSize + k →
        (GinMiddleware cfg genID req handler).requestBodySnapshot =
          bs.full.take cfg.MaxBodyLogSize ++ "...[truncated]" ∧
        (bs.full.take cfg.MaxBodyLogSize).length = cfg.MaxBodyLogSize) ∧
      (bs.full.length ≤ cfg.MaxBodyLogSize →
        (GinMiddleware cfg genID req handler).requestBodySnapshot = bs.full) ∧
      (∀ k, 0 < k → handler.written.length = cfg.MaxBodyLogSize + k →
        400 ≤ handler.status → cfg.LogResponseBody = true →
        (GinMiddleware cfg genID req handler).responseBodySnapshot =
          some (handler.written.take cfg.MaxBodyLogSize ++ "...[truncated]") ∧
        (handler.written.take cfg.MaxBodyLogSize).length = cfg.MaxBodyLogSize) ∧
      (handler.written.length ≤ cfg.MaxBodyLogSize → 400 ≤ handler.status →
        cfg.LogResponseBody = true →
        (GinMiddleware cfg genID req handler).responseBodySnapshot =
          some handler.written) := by
  have hnskip : ¬ (cfg.SkipPaths.contains req.urlPath = true) := by
    rw [hskip]
    exact Bool.false_ne_true
  have hcond : (cfg.LogRequestBody && !decide (req.method = "GET")) = true := by
    rw [hlog]
    simp [hmethod]
  unfold GinMiddleware
  rw [if_neg hnskip]
  refine ⟨?_, ?_, ?_, ?_⟩
  · intro k hk hlen
    simp only [hbody]
    rw [if_pos hcond, hok]
    have hpos : 0 < bs.full.length := by omega
    have hlt : cfg.MaxBodyLogSize < bs.full.length := by omega
    constructor
    · show (if 0 < bs.full.length then truncateSnapshot cfg.MaxBodyLogSize bs.full else "") =
        bs.full.take cfg.MaxBodyLogSize ++ "...[truncated]"
      rw [if_pos hpos]
      exact truncateSnapshot_long _ _ hlt
    · exact take_length_of_le _ _ (le_of_lt hlt)
  · intro hle
    simp only [hbody]
    rw [if_pos hcond, hok]
    show (if 0 < bs.full.length then truncateSnapshot cfg.MaxBodyLogSize bs.full else "") =
      bs.full
    by_cases hpos : 0 < bs.full.length
    · rw [if_pos hpos]
      exact truncateSnapshot_short _ _ hle
    · rw [if_neg hpos]
      exact (string_eq_empty_of_length_eq_zero _ (by omega)).symm
  · intro k hk hlen hstat hresp
    have hlt : cfg.MaxBodyLogSize < handler.written.length := by omega
    constructor
    · show (if 400 ≤ handler.status ∧ cfg.LogResponseBody = true then
          some (truncateSnapshot cfg.MaxBodyLogSize handler.written) else none) =
        some (handler.written.take cfg.MaxBodyLogSize ++ "...[truncated]")
      rw [if_pos ⟨hstat, hresp⟩, truncateSnapshot_long _ _ hlt]
    · exact take_length_of_le _ _ (le_of_lt hlt)
  · intro hle hstat hresp
    show (if 400 ≤ handler.status ∧ cfg.LogResponseBody = true then
        some (truncateSnapshot cfg.MaxBodyLogSize handler.written) else none) =
      some handler.written
    rw [if_pos ⟨hstat, hresp⟩, truncateSnapshot_short _ _ hle]

/-- C9 witness: limit 4, six-byte request body, ten-byte response body,
status 500. -/
theorem ginMiddleware_snapshot_truncation_witness :
    ("abcdef" : String).length = 4 + 2 ∧
      ("0123456789" : String).length = 4 + 6 ∧
      (GinMiddleware (GinConfig.mk "X-Request-ID" 4 true true [] true []) "gen"
          (GinRequest.mk "/x" "POST" "" "" "" "" (some ⟨"abcdef", none⟩))
          (HandlerResult.mk 500 "0123456789" none none)).requestBodySnapshot =
        ("abcdef" : String).take 4 ++ "...[truncated]" ∧
      (GinMiddleware (GinConfig.mk "X-Request-ID" 4 true true [] true []) "gen"
          (GinRequest.mk "/x" "POST" "" "" "" "" (some ⟨"abcdef", none⟩))
          (HandlerResult.mk 500 "0123456789" none none)).responseBodySnapshot =
        some (("0123456789" : String).take 4 ++ "...[truncated]") := by
  refine ⟨by decide, by decide, ?_, ?_⟩
  · exact ((ginMiddleware_snapshot_truncation _ "gen" _ _ ⟨"abcdef", none⟩ (by decide) rfl
      (by decide) rfl rfl).1 2 (by decide) (by decide)).1
  · exact ((ginMiddleware_snapshot_truncation _ "gen" _ _ ⟨"abcdef", none⟩ (by decide) rfl
      (by decide) rfl rfl).2.2.1 6 (by decide) (by decide) (by decide) rfl).1

/-! ## Claims about `maskJSONFields` (C4, C5) -/

/-- The empty-rule-set fast path returns the document unchanged. -/
theorem maskJSONFields_nil (d : Json) : maskJSONFields d [] = d := by
  unfold maskJSONFields
  rfl

/-- With no rules the per-key loop is the identity. -/
theorem maskObjFields_nil (l : List (String × Json)) : maskObjFields l [] = l := by
  induction l with
  | nil => rfl
  | cons kv rest ih =>
    obtain ⟨k, v⟩ := kv
    unfold maskObjFields
    rw [ih, maskJSONFields_nil]
    simp [shouldMask]

/-- With no rules the per-element loop is the identity. -/
theorem maskArrItems_nil (l : List Json) : maskArrItems l [] = l := by
  induction l with
  | nil => rfl
  | cons item rest ih =>
    unfold maskArrItems
    rw [ih, maskJSONFields_nil]

/-- `maskJSONFields` on a map rebuilds it through the per-key loop. -/
theorem mask_obj (l : List (String × Json)) (ps : List Pattern) :
    maskJSONFields (Json.obj l) ps = Json.obj (maskObjFields l ps) := by
  cases ps with
  | nil => rw [maskJSONFields_nil, maskObjFields_nil]
  | cons p ps => rfl

/-- `maskJSONFields` on an array rebuilds it through the per-element loop. -/
theorem mask_arr (l : List Json) (ps : List Pattern) :
    maskJSONFields (Json.arr l) ps = Json.arr (maskArrItems l ps) := by
  cases ps with
  | nil => rw [maskJSONFields_nil, maskArrItems_nil]
  | cons p ps => rfl

/-- Scalars pass through unchanged: null. -/
theorem mask_null (ps : List Pattern) : maskJSONFields Json.null ps = Json.null := by
  cases ps <;> rfl

/-- Scalars pass through unchanged: booleans. -/
theorem mask_bool (b : Bool) (ps : List Pattern) :
    maskJSONFields (Json.bool b) ps = Json.bool b := by
  cases ps <;> rfl

/-- Scalars pass through unchanged: numbers. -/
theorem mask_num (n : String) (ps : List Pattern) :
    maskJSONFields (Json.num n) ps = Json.num n := by
  cases ps <;> rfl

/-- Scalars pass through unchanged: strings. -/
theorem mask_str (s : String) (ps : List Pattern) :
    maskJSONFields (Json.str s) ps = Json.str s := by
  cases ps <;> rfl

/-- The per-key loop is a map over the key-value pairs. -/
theorem maskObjFields_map (l : List (String × Json)) (ps : List Pattern) :
    maskObjFields l ps = l.map (fun kv =>
      if shouldMask kv.1 ps then (kv.1, Json.str DefaultMaskValue)
      else (kv.1, maskJSONFields kv.2 ps)) := by
  induction l with
  | nil => rfl
  | cons kv rest ih =>
    obtain ⟨k, v⟩ := kv
    unfold maskObjFields
    rw [ih]
    rfl

/-- The per-element loop is a map over the elements. -/
theorem maskArrItems_map (l : List Json) (ps : List Pattern) :
    maskArrItems l ps = l.map (fun it => maskJSONFields it ps) := by
  induction l with
  | nil => rfl
  | cons item rest ih =>
    unfold maskArrItems
    rw [ih]
    rfl

mutual

/-- Masking twice equals masking once, on values. -/
theorem mask_idem_val : (d : Json) → (ps : List Pattern) →
    maskJSONFields (maskJSONFields d ps) ps = maskJSONFields d ps
  | Json.null, ps => by rw [mask_null, mask_null]
  | Json.bool b, ps => by rw [mask_bool, mask_bool]
  | Json.num n, ps => by rw [mask_num, mask_num]
  | Json.str s, ps => by rw [mask_str, mask_str]
  | Json.obj fields, ps => by
    rw [mask_obj, mask_obj, mask_idem_obj fields ps]
  | Json.arr items, ps => by
    rw [mask_arr, mask_arr, mask_idem_arr items ps]

/-- Masking twice equals masking once, on map entries. -/
theorem mask_idem_obj : (l : List (String × Json)) → (ps : List Pattern) →
    maskObjFields (maskObjFields l ps) ps = maskObjFields l ps
  | [], ps => rfl
  | (k, v) :: rest, ps => by
    by_cases h : shouldMask k ps
    · show maskObjFields ((if shouldMask k ps then (k, Json.str DefaultMaskValue)
        else (k, maskJSONFields v ps)) :: maskObjFields rest ps) ps = _
      rw [if_pos h]
      show (if shouldMask k ps then (k, Json.str DefaultMaskValue)
        else (k, maskJSONFields (Json.str DefaultMaskValue) ps)) ::
          maskObjFields (maskObjFields rest ps) ps = _
      rw [if_pos h, mask_idem_obj rest ps]
      show _ = (if shouldMask k ps then (k, Json.str DefaultMaskValue)
        else (k, maskJSONFields v ps)) :: maskObjFields rest ps
      rw [if_pos h]
    · show maskObjFields ((if shouldMask k ps then (k, Json.str DefaultMaskValue)
        else (k, maskJSONFields v ps)) :: maskObjFields rest ps) ps = _
      rw [if_neg h]
      show (if shouldMask k ps then (k, Json.str DefaultMaskValue)
        else (k, maskJSONFields (maskJSONFields v ps) ps)) ::
          maskObjFields (maskObjFields rest ps) ps = _
      rw [if_neg h, mask_idem_obj rest ps, mask_idem_val v ps]
      show _ = (if shouldMask k ps then (k, Json.str DefaultMaskValue)
        else (k, maskJSONFields v ps)) :: maskObjFields rest ps
      rw [if_neg h]

/-- Masking twice equals masking once, on array elements. -/
theorem mask_idem_arr : (l : List Json) → (ps : List Pattern) →
    maskArrItems (maskArrItems l ps) ps = maskArrItems l ps
  | [], ps => rfl
  | item :: rest, ps => by
    show maskArrItems (maskJSONFields item ps :: maskArrItems rest ps) ps = _
    show maskJSONFields (maskJSONFields item ps) ps ::
      maskArrItems (maskArrItems rest ps) ps = _
    rw [mask_idem_val item ps, mask_idem_arr rest ps]
    rfl

end

/-- The key list of a map document (empty for non-maps). -/
def objKeys : Json → List String
  | Json.obj l => l.map Prod.fst
  | _ => []

/-- The length of an array document (zero for non-arrays). -/
def arrLen : Json → Nat
  | Json.arr l => l.length
  | _ => 0

/-- C5: `maskJSONFields` preserves document shape.  On a map the result
is exactly the original key list with each matching key's whole value
replaced by the sentinel (no recursion into it) and each non-matching
key's value recursed into; the key set is unchanged.  On an array the
elements are recursed into positionally and the length is unchanged;
elements are never masked by index.  Scalars are returned unchanged. -/
theorem maskJSONFields_shape (ps : List Pattern) :
    (∀ fields, maskJSONFields (Json.obj fields) ps =
        Json.obj (fields.map (fun kv =>
          if shouldMask kv.1 ps then (kv.1, Json.str DefaultMaskValue)
          else (kv.1, maskJSONFields kv.2 ps)))) ∧
      (∀ fields, objKeys (maskJSONFields (Json.obj fields) ps) = fields.map Prod.fst) ∧
      (∀ items, maskJSONFields (Json.arr items) ps =
          Json.arr (items.map (fun it => maskJSONFields it ps))) ∧
      (∀ items, arrLen (maskJSONFields (Json.arr items) ps) = items.length) ∧
      (∀ s, maskJSONFields (Json.str s) ps = Json.str s) ∧
      (∀ n, maskJSONFields (Json.num n) ps = Json.num n) ∧
      (∀ b, maskJSONFields (Json.bool b) ps = Json.bool b) ∧
      maskJSONFields Json.null ps = Json.null := by
  refine ⟨?_, ?_, ?_, ?_, (mask_str · ps), (mask_num · ps), (mask_bool · ps), mask_null ps⟩
  · intro fields
    rw [mask_obj, maskObjFields_map]
  · intro fields
    rw [mask_obj, maskObjFields_map]
    show (fields.map _).map Prod.fst = fields.map Prod.fst
    rw [List.map_map]
    congr 1
    funext kv
    by_cases h : shouldMask kv.1 ps <;> simp [h, Function.comp]
  · intro items
    rw [mask_arr, maskArrItems_map]
  · intro items
    rw [mask_arr, maskArrItems_map]
    show (items.map _).length = items.length
    rw [List.length_map]

/-- C4: redaction is idempotent: masking an already-masked document with
the same rule set changes nothing. -/
theorem maskJSONFields_idempotent (d : Json) (ps : List Pattern) :
    maskJSONFields (maskJSONFields d ps) ps = maskJSONFields d ps :=
  mask_idem_val d ps

/-! ## Claim about truncation versus redaction (C10) -/

/-- After any state, consuming `'d'` and then `']'` can never leave the
scanner in an accepting configuration: `'d'` is legal only inside a
string literal (no keyword, number or structural position admits it),
and from a string state `']'` stays inside the string. -/
theorem scan_d_bracket (st : ScanState) :
    scanAccept (scanStep (scanStep st 'd') ']') = false := by
  obtain ⟨ph, stk⟩ := st
  cases ph <;> try rfl
  all_goals
    cases stk with
    | nil => rfl
    | cons f r => cases f <;> rfl

/-- No string ending in the truncation marker is valid JSON: the final
two characters are `'d'` and `']'`. -/
theorem checkValid_marker_suffix (s : String) :
    checkValid (s ++ "...[truncated]") = false := by
  have hsplit : (s ++ "...[truncated]").data = (s ++ "...[truncate").data ++ ['d', ']'] := by
    rw [String.data_append, String.data_append, List.append_assoc]
    rfl
  unfold checkValid
  rw [hsplit, List.foldl_append]
  exact scan_d_bracket _

/-- `json.Unmarshal` rejects every string ending in the marker. -/
theorem unmarshal_marker_none (s : String) :
    unmarshalJSON (s ++ "...[truncated]") = none := by
  unfold unmarshalJSON
  rw [checkValid_marker_suffix]
  rfl

/-- When parsing fails, `maskBody` returns the body unchanged. -/
theorem maskBody_of_unmarshal_none (body : String) (ps : List Pattern)
    (h : unmarshalJSON body = none) : maskBody body ps = body := by
  unfold maskBody
  split
  · rfl
  · rw [h]

/-- C10: a valid-JSON body longer than the limit truncates to a snapshot
that is no longer valid JSON, so `maskBody` returns it unchanged — for
any rule set, even one whose patterns match field names in the retained
prefix — and the completion event of the middleware logs the truncated
response body with nothing replaced by the sentinel. -/
theorem truncation_defeats_redaction (maxSize : Nat) (body : String) (ps : List Pattern)
    (_hvalid : checkValid body = true)
    (hlong : maxSize < body.length) :
    checkValid (truncateSnapshot maxSize body) = false ∧
      maskBody (truncateSnapshot maxSize body) ps = truncateSnapshot maxSize body ∧
      (∀ (cfg : GinConfig) (genID : String) (req : GinRequest) (handler : HandlerResult),
        cfg.MaxBodyLogSize = maxSize → cfg.MaskPatterns = ps →
        cfg.SkipPaths.contains req.urlPath = false →
        400 ≤ handler.status → cfg.LogResponseBody = true →
        handler.written = body →
        ∃ ev, (GinMiddleware cfg genID req handler).completion = some ev ∧
          ev.responseBody = some (truncateSnapshot maxSize body)) := by
  have h1 : truncateSnapshot maxSize body = body.take maxSize ++ "...[truncated]" :=
    truncateSnapshot_long _ _ hlong
  have h2 : maskBody (truncateSnapshot maxSize body) ps = truncateSnapshot maxSize body := by
    apply maskBody_of_unmarshal_none
    rw [h1]
    exact unmarshal_marker_none _
  refine ⟨?_, h2, ?_⟩
  · rw [h1]
    exact checkValid_marker_suffix _
  · intro cfg genID req handler hmax hps hskip hstat hresp hw
    have hnskip : ¬ (cfg.SkipPaths.contains req.urlPath = true) := by
      rw [hskip]
      exact Bool.false_ne_true
    unfold GinMiddleware
    rw [if_neg hnskip]
    refine ⟨_, rfl, ?_⟩
    show (if 400 ≤ handler.status ∧ cfg.LogResponseBody = true then
        some (truncateSnapshot cfg.MaxBodyLogSize handler.written) else none).map
      (fun s => maskBody s cfg.MaskPatterns) = some (truncateSnapshot maxSize body)
    rw [if_pos ⟨hstat, hresp⟩, Option.map_some', hmax, hps, hw, h2]

/-- C10 witness: limit 4, a valid JSON body containing a field whose
name the single pattern matches. -/
theorem truncation_defeats_redaction_witness :
    checkValid "\x7b\"password\":\"hunter2\"\x7d" = true ∧
      (4 : Nat) < ("\x7b\"password\":\"hunter2\"\x7d" : String).length ∧
      maskBody (truncateSnapshot 4 "\x7b\"password\":\"hunter2\"\x7d")
          [fun s => decide (s = "password")] =
        truncateSnapshot 4 "\x7b\"password\":\"hunter2\"\x7d" :=
  ⟨by decide, by decide,
    (truncation_defeats_redaction 4 "\x7b\"password\":\"hunter2\"\x7d"
      [fun s => decide (s = "password")] (by decide) (by decide)).2.1⟩
